import Mathlib

/-!
Verification development for the WhatsApp coffee-passport loyalty service.

The transport bridge (`whatsapp-service.js`) is embedded shallowly below:
`handleIncomingMessage` and `sendMessage` become pure Lean functions over an
explicit environment (socket state, backend oracle, socket-send oracle), with
JavaScript exceptions modelled by `Except` and the handler's observable
side effects (HTTP posts, sendMessage invocations, socket sends) collected in
a trace.  The loyalty engine lives in the FastAPI backend, which is not part
of the source tree; it is modelled from the specification, as marked.
-/

namespace CoffeePassport

/-- The channel suffix stripped from a raw sender jid, as the character list
of the literal `'@s.whatsapp.net'` at `whatsapp-service.js:71`. -/
def suffixChars : List Char := "@s.whatsapp.net".data

/-- JavaScript `String.prototype.replace` with a *string* pattern replaces only
the first occurrence.  `removeFirst pat s` removes the first occurrence of
`pat` from `s`, or returns `s` unchanged when `pat` does not occur. -/
def removeFirst (pat : List Char) : List Char → List Char
  | [] => []
  | c :: rest =>
      if pat.isPrefixOf (c :: rest) then (c :: rest).drop pat.length
      else c :: removeFirst pat rest

/-- Whether `pat` occurs as a contiguous sublist of `s`. -/
def containsPat (pat : List Char) : List Char → Bool
  | [] => pat.isEmpty
  | c :: rest => pat.isPrefixOf (c :: rest) || containsPat pat rest

/-- The identity normalizer of `whatsapp-service.js:71` and `:93`:
`message.key.remoteJid.replace('@s.whatsapp.net', '')`.  JavaScript `replace`
with a string pattern removes only the first occurrence. -/
def normalizePhone (s : String) : String :=
  String.mk (removeFirst suffixChars s.data)

/-- `phoneNumber.includes('@')` at `whatsapp-service.js:104`. -/
def containsAt (s : String) : Bool :=
  s.data.contains '@'

/-- The jid construction of `whatsapp-service.js:104`:
`phoneNumber.includes('@') ? phoneNumber : phoneNumber + '@s.whatsapp.net'`. -/
def jidFor (phoneNumber : String) : String :=
  if containsAt phoneNumber then phoneNumber
  else phoneNumber ++ "@s.whatsapp.net"

/-- The fixed error reply text of `whatsapp-service.js:94`. -/
def errorText : String :=
  "Sorry, I encountered an error processing your message. Please try again."

/-- The body of a delivered message (`message.message`): the optional
`conversation` text and the optional `extendedTextMessage?.text`. -/
structure MsgBody where
  conversation : Option String
  extendedText : Option String
deriving DecidableEq

/-- An inbound Baileys message as used by the service: `key.remoteJid`
(optional in the Baileys message key type), `key.fromMe`, the optional
`message` body, `key.id` and `messageTimestamp`. -/
structure InboundMessage where
  remoteJid : Option String
  fromMe : Bool
  body : Option MsgBody
  messageId : String
  timestamp : Int
deriving DecidableEq

/-- JavaScript `a || b` on an optional string: the first operand when it is
present and truthy (non-empty), otherwise the second. -/
def jsOr (a : Option String) (b : String) : String :=
  match a with
  | some s => if s = "" then b else s
  | none => b

/-- The message text extraction of `whatsapp-service.js:72-73`:
`message.message.conversation || message.message.extendedTextMessage?.text`
falling back to the empty string. -/
def messageTextOf (b : MsgBody) : String :=
  jsOr b.conversation (jsOr b.extendedText "")

/-- The JSON payload posted to the backend at `whatsapp-service.js:78-83`. -/
structure Payload where
  phone_number : String
  message : String
  message_id : String
  timestamp : Int
deriving DecidableEq

/-- The backend's response body as read by the service:
`response.data.reply` at `whatsapp-service.js:86`. -/
structure BackendData where
  reply : Option String
deriving DecidableEq

/-- The result object of `sendMessage` (`whatsapp-service.js:107` and
`:111`). -/
structure SendResult where
  success : Bool
  error : Option String
deriving DecidableEq

/-- The ambient state and external collaborators of the service: whether
`sock` is non-null, the `connectionStatus` string, the socket send operation
`sock.sendMessage` (which may throw), and the backend HTTP call
`axios.post` (which may throw). -/
structure Env where
  sockPresent : Bool
  connectionStatus : String
  sockSend : String → String → Except String Unit
  backend : Payload → Except String BackendData

/-- `sendMessage` (`whatsapp-service.js:98-113`).  Its whole body is a
try/catch whose catch returns a failure object, so it always returns a
`SendResult` and never throws to its caller: the guard throw at line 101 and
a throw from `sock.sendMessage` at line 105 are both caught at line 109.
The second component records the socket send attempts `(jid, text)`. -/
def sendMessage (env : Env) (phoneNumber text : String) :
    SendResult × List (String × String) :=
  if env.sockPresent = false ∨ env.connectionStatus ≠ "connected" then
    ({ success := false, error := some "WhatsApp not connected" }, [])
  else
    match env.sockSend (jidFor phoneNumber) text with
    | .ok _ => ({ success := true, error := none }, [(jidFor phoneNumber, text)])
    | .error e =>
        ({ success := false, error := some e }, [(jidFor phoneNumber, text)])

/-- A JavaScript exception escaping `handleIncomingMessage`. -/
inductive JsError
  | typeError
deriving DecidableEq

/-- Observable effects of one `handleIncomingMessage` run: payloads posted to
the backend, `sendMessage` invocations `(phoneNumber, text)`, and socket send
attempts `(jid, text)`. -/
structure HandlerTrace where
  posted : List Payload
  sendCalls : List (String × String)
  sockSends : List (String × String)
deriving DecidableEq

/-- `handleIncomingMessage` (`whatsapp-service.js:69-96`).  When
`key.remoteJid` is absent, line 71 throws a TypeError; the catch block at
line 93 dereferences `message.key.remoteJid` again, throws the same
TypeError, and that one propagates out of the function — modelled as
`.error .typeError`.  When the body `message.message` is absent, line 72
throws, the catch recomputes the phone number (remoteJid is present) and
sends the fixed error reply.  A throw from `axios.post` is caught the same
way.  `sendMessage` never throws, so its failures do not reach the catch. -/
def handleIncomingMessage (env : Env) (m : InboundMessage) :
    Except JsError HandlerTrace :=
  match m.remoteJid with
  | none => .error .typeError
  | some jid =>
      let phoneNumber := normalizePhone jid
      match m.body with
      | none =>
          let r := sendMessage env phoneNumber errorText
          .ok { posted := [], sendCalls := [(phoneNumber, errorText)],
                sockSends := r.2 }
      | some b =>
          let payload : Payload :=
            { phone_number := phoneNumber, message := messageTextOf b,
              message_id := m.messageId, timestamp := m.timestamp }
          match env.backend payload with
          | .error _ =>
              let r := sendMessage env phoneNumber errorText
              .ok { posted := [payload], sendCalls := [(phoneNumber, errorText)],
                    sockSends := r.2 }
          | .ok data =>
              match data.reply with
              | some reply =>
                  if reply = "" then
                    .ok { posted := [payload], sendCalls := [], sockSends := [] }
                  else
                    let r := sendMessage env phoneNumber reply
                    .ok { posted := [payload], sendCalls := [(phoneNumber, reply)],
                          sockSends := r.2 }
              | none => .ok { posted := [payload], sendCalls := [], sockSends := [] }

/-- The upstream filter of the `messages.upsert` listener
(`whatsapp-service.js:51-59`): only events of type `'notify'` are processed,
and within them only messages that are not self-sent echoes (`!key.fromMe`)
and have a message body reach `handleIncomingMessage`. -/
def handledMessages (eventType : String) (msgs : List InboundMessage) :
    List InboundMessage :=
  if eventType = "notify" then
    msgs.filter (fun m => !m.fromMe && m.body.isSome)
  else []

/-- The `sendMessage` invocations of a handler run; empty when the handler
threw. -/
def sendCallsOf : Except JsError HandlerTrace → List (String × String)
  | .ok t => t.sendCalls
  | .error _ => []

/-- The backend posts of a handler run; empty when the handler threw. -/
def postedOf : Except JsError HandlerTrace → List Payload
  | .ok t => t.posted
  | .error _ => []

/-- Whether a handler run completed without a propagated exception. -/
def exceptOk : Except JsError HandlerTrace → Bool
  | .ok _ => true
  | .error _ => false

/-- The output shape asserted by the specification for the normalizer: every
character a digit, except possibly a single leading `'+'`.  Defined from the
claim's words, to compare against the behaviour of the code. -/
def onlyDigitsOrLeadingPlus (s : String) : Bool :=
  match s.data with
  | '+' :: rest => rest.all Char.isDigit
  | l => l.all Char.isDigit

/-- Modelled from the spec: the loyalty engine lives in the FastAPI backend,
which is absent from the source tree.  This Customer record follows §3 of the
specification: `customer_id`, `phone_number`, `name`, `stamps`, `rewards`,
`last_stamp_at` (timestamp or absent), `created_at`. -/
structure Customer where
  customer_id : String
  phone_number : String
  name : String
  stamps : Int
  rewards : Int
  last_stamp_at : Option Int
  created_at : Int
deriving DecidableEq

/-- Modelled from the spec: the customer store of §3, a keyed collection with
primary lookup by phone number and secondary lookup by customer id. -/
abbrev Store := List Customer

/-- Modelled from the spec: the parsed chat commands of §4.2, together with
the identities they are applied with (sender phone for customer commands,
acting staff phone and target customer id for staff commands, and the
ingestion time for the commands that read the clock). -/
inductive Command
  | join (phone : String) (newId : String) (now : Int)
  | status (phone : String)
  | reward (phone : String)
  | updateName (phone : String) (newName : String)
  | help
  | stamp (actor : String) (id : String) (now : Int)
  | redeem (actor : String) (id : String)
deriving DecidableEq

/-- Modelled from the spec: `get(phone_number)` of the Customer Store (§6). -/
def getByPhone (s : Store) (p : String) : Option Customer :=
  s.find? (fun c => c.phone_number == p)

/-- Modelled from the spec: `getById(customer_id)` of the Customer Store
(§6). -/
def getById (s : Store) (i : String) : Option Customer :=
  s.find? (fun c => c.customer_id == i)

/-- Modelled from the spec: the five-minute duplicate-stamp cooldown of §4.4,
measured from `last_stamp_at`: elapsed when there is no prior stamp or
`now - last_stamp_at ≥ 5min` (300 seconds). -/
def cooldownElapsed (c : Customer) (now : Int) : Bool :=
  match c.last_stamp_at with
  | none => true
  | some t => decide (now - t ≥ 300)

/-- Modelled from the spec: the STAMP effect of §4.4 on the targeted record —
precondition cooldown elapsed and `stamps < 10`; effect `stamps += 1` and
`last_stamp_at = now`; on a failed precondition the record is unchanged. -/
def stampUpd (now : Int) (c : Customer) : Customer :=
  if cooldownElapsed c now ∧ c.stamps < 10 then
    { c with stamps := c.stamps + 1, last_stamp_at := some now }
  else c

/-- Modelled from the spec: the REWARD effect of §4.4 — precondition
`stamps == 10`; effect increments `rewards` without resetting `stamps`. -/
def rewardUpd (c : Customer) : Customer :=
  if c.stamps = 10 then { c with rewards := c.rewards + 1 } else c

/-- Modelled from the spec: the REDEEM effect of §4.4 — precondition
`rewards ≥ 1`; effect `rewards -= 1` and `stamps = 0`. -/
def redeemUpd (c : Customer) : Customer :=
  if c.rewards ≥ 1 then { c with rewards := c.rewards - 1, stamps := 0 }
  else c

/-- Modelled from the spec: one step of the loyalty state machine of §4.4.
`staff` is the staff allow-list of §4.3; a command whose authorization or
precondition fails leaves the store unchanged; records are addressed through
their unique keys (phone number, customer id). JOIN creates a record with a
welcome stamp (`stamps = 1`, `rewards = 0`) only when the phone is unknown;
STATUS and HELP are read-only. -/
def step (staff : List String) (s : Store) : Command → Store
  | .join phone newId now =>
      match getByPhone s phone with
      | some _ => s
      | none =>
          s ++ [{ customer_id := newId, phone_number := phone, name := "",
                  stamps := 1, rewards := 0, last_stamp_at := none,
                  created_at := now }]
  | .status _ => s
  | .reward phone =>
      s.map (fun c => if c.phone_number == phone then rewardUpd c else c)
  | .updateName phone newName =>
      s.map (fun c =>
        if c.phone_number == phone then { c with name := newName } else c)
  | .help => s
  | .stamp actor id now =>
      if staff.contains actor then
        s.map (fun c => if c.customer_id == id then stampUpd now c else c)
      else s
  | .redeem actor id =>
      if staff.contains actor then
        s.map (fun c => if c.customer_id == id then redeemUpd c else c)
      else s

/-- The per-record invariant of the claim: `0 ≤ stamps ≤ 10` and
`rewards ≥ 0`. -/
def customerInv (c : Customer) : Bool :=
  decide (0 ≤ c.stamps) && decide (c.stamps ≤ 10) && decide (0 ≤ c.rewards)

/-- The invariant over every record of the store. -/
def storeInv (s : Store) : Bool :=
  s.all customerInv

/-- Folding a sequence of commands over the store. -/
def run (staff : List String) (s : Store) (ops : List Command) : Store :=
  ops.foldl (step staff) s

-- Concrete inputs used by counterexamples and witnesses.

/-- An environment where everything downstream succeeds. -/
def c1CexEnv : Env :=
  { sockPresent := true, connectionStatus := "connected",
    sockSend := fun _ _ => .ok (), backend := fun _ => .ok { reply := none } }

/-- A delivered message whose key carries no `remoteJid`. -/
def c1CexMsg : InboundMessage :=
  { remoteJid := none, fromMe := false,
    body := some { conversation := some "JOIN", extendedText := none },
    messageId := "A1", timestamp := 1700000000 }

/-- An environment whose backend call throws. -/
def c1WitEnv : Env :=
  { sockPresent := true, connectionStatus := "connected",
    sockSend := fun _ _ => .ok (),
    backend := fun _ => .error "Network Error" }

/-- A well-formed inbound message. -/
def c1WitMsg : InboundMessage :=
  { remoteJid := some "4915123456789@s.whatsapp.net", fromMe := false,
    body := some { conversation := some "STATUS", extendedText := none },
    messageId := "A2", timestamp := 1700000001 }

/-- An environment where the backend answers with a reply but the socket
send throws. -/
def c2CexEnv : Env :=
  { sockPresent := true, connectionStatus := "connected",
    sockSend := fun _ _ => .error "Connection Closed",
    backend := fun _ => .ok { reply := some "Welcome!" } }

/-- A well-formed inbound message from sender 123. -/
def c2CexMsg : InboundMessage :=
  { remoteJid := some "123@s.whatsapp.net", fromMe := false,
    body := some { conversation := some "JOIN", extendedText := none },
    messageId := "B1", timestamp := 1700000002 }

/-- An environment whose backend is unreachable. -/
def c2WitEnv : Env :=
  { sockPresent := false, connectionStatus := "disconnected",
    sockSend := fun _ _ => .ok (),
    backend := fun _ => .error "ECONNREFUSED" }

/-- A well-formed inbound message from sender 49170. -/
def c2WitMsg : InboundMessage :=
  { remoteJid := some "49170@s.whatsapp.net", fromMe := false,
    body := some { conversation := some "STATUS", extendedText := none },
    messageId := "B2", timestamp := 1700000003 }

/-- The staff allow-list for the loyalty witness run. -/
def c3Staff : List String := ["15550001111"]

/-- A command sequence exercising every transition, including a cooldown
denial, a reward claim and a redemption. -/
def c3Ops : List Command :=
  [Command.join "15552223333" "C1" 0,
   Command.status "15552223333",
   Command.stamp "15550001111" "C1" 400,
   Command.stamp "15550001111" "C1" 500,
   Command.reward "15552223333",
   Command.redeem "15550001111" "C1",
   Command.updateName "15552223333" "Ada"]

/-- A self-sent echo message. -/
def c6Msg : InboundMessage :=
  { remoteJid := some "777@s.whatsapp.net", fromMe := true,
    body := some { conversation := some "STATUS", extendedText := none },
    messageId := "F1", timestamp := 1700000004 }

/-- An environment whose backend answers with a non-empty reply. -/
def c7WitEnv : Env :=
  { sockPresent := true, connectionStatus := "connected",
    sockSend := fun _ _ => .ok (),
    backend := fun _ => .ok { reply := some "Stamps: 3/10" } }

/-- A well-formed inbound message from sender 31612345678. -/
def c7WitMsg : InboundMessage :=
  { remoteJid := some "31612345678@s.whatsapp.net", fromMe := false,
    body := some { conversation := some "STATUS", extendedText := none },
    messageId := "G1", timestamp := 1700000005 }

/-- An inbound message whose text sits in the extended text field. -/
def c8WitMsg : InboundMessage :=
  { remoteJid := some "14155550100@s.whatsapp.net", fromMe := false,
    body := some { conversation := none, extendedText := some "UPDATE NAME Ada" },
    messageId := "H1", timestamp := 1700000006 }

/-- A disconnected environment. -/
def c9Env : Env :=
  { sockPresent := false, connectionStatus := "disconnected",
    sockSend := fun _ _ => .ok (), backend := fun _ => .ok { reply := none } }

-- Facts about `removeFirst` and the normalizer.

theorem suffixChars_eq : suffixChars = '@' :: "s.whatsapp.net".data := by
  decide

theorem removeFirst_of_not_containsPat (pat : List Char) :
    ∀ s : List Char, containsPat pat s = false → removeFirst pat s = s := by
  intro s
  induction s with
  | nil => intro _; rfl
  | cons c rest ih =>
      intro h
      have h' : pat.isPrefixOf (c :: rest) = false ∧ containsPat pat rest = false := by
        simpa [containsPat] using h
      simp [removeFirst, h'.1, ih h'.2]

theorem removeFirst_sublist (pat : List Char) :
    ∀ s : List Char, List.Sublist (removeFirst pat s) s := by
  intro s
  induction s with
  | nil => exact List.Sublist.refl []
  | cons c rest ih =>
      by_cases h : pat.isPrefixOf (c :: rest) = true
      · simp only [removeFirst, h, if_pos]
        exact List.drop_sublist pat.length (c :: rest)
      · simp only [removeFirst, h, if_neg, Bool.false_eq_true]
        simp only [Bool.not_eq_true] at h
        simp only [h, Bool.false_eq_true, if_false]
        exact List.Sublist.cons₂ c ih

theorem removeFirst_suffix_append (s : List Char) (h : ∀ c ∈ s, c ≠ '@') :
    removeFirst suffixChars (s ++ suffixChars) = s := by
  induction s with
  | nil => decide
  | cons c rest ih =>
      have hc : c ≠ '@' := h c (List.mem_cons_self c rest)
      have hrest : ∀ x ∈ rest, x ≠ '@' := fun x hx => h x (List.mem_cons_of_mem c hx)
      have hbeq : ('@' == c) = false := by
        simp only [beq_eq_false_iff_ne]
        exact fun hh => hc hh.symm
      have hpre : suffixChars.isPrefixOf (c :: (rest ++ suffixChars)) = false := by
        rw [suffixChars_eq]
        simp [List.isPrefixOf, hbeq]
      simp only [List.cons_append, removeFirst, List.append_eq, hpre, Bool.false_eq_true,
        if_false]
      rw [ih hrest]

-- Facts about the loyalty state machine.

theorem customerInv_iff (c : Customer) :
    customerInv c = true ↔ 0 ≤ c.stamps ∧ c.stamps ≤ 10 ∧ 0 ≤ c.rewards := by
  simp [customerInv, and_assoc]

theorem customerInv_stampUpd (now : Int) (c : Customer)
    (h : customerInv c = true) : customerInv (stampUpd now c) = true := by
  rw [customerInv_iff] at h
  unfold stampUpd
  by_cases hc : cooldownElapsed c now ∧ c.stamps < 10
  · rw [if_pos hc, customerInv_iff]
    show 0 ≤ c.stamps + 1 ∧ c.stamps + 1 ≤ 10 ∧ 0 ≤ c.rewards
    obtain ⟨h1, h2, h3⟩ := h
    obtain ⟨-, hlt⟩ := hc
    exact ⟨by omega, by omega, h3⟩
  · rw [if_neg hc, customerInv_iff]; exact h

theorem customerInv_rewardUpd (c : Customer) (h : customerInv c = true) :
    customerInv (rewardUpd c) = true := by
  rw [customerInv_iff] at h
  unfold rewardUpd
  by_cases hc : c.stamps = 10
  · rw [if_pos hc, customerInv_iff]
    show 0 ≤ c.stamps ∧ c.stamps ≤ 10 ∧ 0 ≤ c.rewards + 1
    exact ⟨h.1, h.2.1, by omega⟩
  · rw [if_neg hc, customerInv_iff]; exact h

theorem customerInv_redeemUpd (c : Customer) (h : customerInv c = true) :
    customerInv (redeemUpd c) = true := by
  rw [customerInv_iff] at h
  unfold redeemUpd
  by_cases hc : c.rewards ≥ 1
  · rw [if_pos hc, customerInv_iff]
    show (0 : Int) ≤ 0 ∧ (0 : Int) ≤ 10 ∧ 0 ≤ c.rewards - 1
    exact ⟨le_refl 0, by omega, by omega⟩
  · rw [if_neg hc, customerInv_iff]; exact h

theorem storeInv_map (f : Customer → Customer)
    (hf : ∀ c, customerInv c = true → customerInv (f c) = true)
    (s : Store) (h : storeInv s = true) : storeInv (s.map f) = true := by
  simp only [storeInv, List.all_eq_true] at h ⊢
  intro c hc
  rcases List.mem_map.mp hc with ⟨d, hd, rfl⟩
  exact hf d (h d hd)

theorem storeInv_step (staff : List String) (s : Store) (cmd : Command)
    (h : storeInv s = true) : storeInv (step staff s cmd) = true := by
  cases cmd with
  | join phone newId now =>
      simp only [step]
      cases getByPhone s phone with
      | some c => exact h
      | none =>
          simp only [storeInv, List.all_eq_true] at h ⊢
          intro c hc
          rcases List.mem_append.mp hc with hc | hc
          · exact h c hc
          · rw [List.mem_singleton.mp hc]
            rfl
  | status phone => exact h
  | reward phone =>
      simp only [step]
      refine storeInv_map _ ?_ s h
      intro c hc
      by_cases hp : (c.phone_number == phone) = true
      · rw [if_pos hp]; exact customerInv_rewardUpd c hc
      · rw [if_neg hp]; exact hc
  | updateName phone newName =>
      simp only [step]
      refine storeInv_map _ ?_ s h
      intro c hc
      by_cases hp : (c.phone_number == phone) = true
      · rw [if_pos hp]
        rw [customerInv_iff] at hc ⊢
        exact hc
      · rw [if_neg hp]; exact hc
  | help => exact h
  | stamp actor id now =>
      simp only [step]
      by_cases ha : staff.contains actor = true
      · rw [if_pos ha]
        refine storeInv_map _ ?_ s h
        intro c hc
        by_cases hp : (c.customer_id == id) = true
        · rw [if_pos hp]; exact customerInv_stampUpd now c hc
        · rw [if_neg hp]; exact hc
      · rw [if_neg ha]; exact h
  | redeem actor id =>
      simp only [step]
      by_cases ha : staff.contains actor = true
      · rw [if_pos ha]
        refine storeInv_map _ ?_ s h
        intro c hc
        by_cases hp : (c.customer_id == id) = true
        · rw [if_pos hp]; exact customerInv_redeemUpd c hc
        · rw [if_neg hp]; exact hc
      · rw [if_neg ha]; exact h

theorem storeInv_run (staff : List String) (ops : List Command) :
    ∀ s : Store, storeInv s = true → storeInv (run staff s ops) = true := by
  induction ops with
  | nil => intro s h; exact h
  | cons op rest ih =>
      intro s h
      have hstep : run staff s (op :: rest) = run staff (step staff s op) rest := rfl
      rw [hstep]
      exact ih _ (storeInv_step staff s op h)

-- Claim theorems.

/-- C1 as stated is false: a message without `key.remoteJid` makes
`handleIncomingMessage` itself raise — line 71 throws a TypeError, and the
catch block at line 93 dereferences `message.key.remoteJid` again and throws
the same TypeError, which propagates to the enclosing message loop. -/
theorem handler_throws_on_missing_remoteJid :
    handleIncomingMessage c1CexEnv c1CexMsg = .error .typeError := rfl

/-- C1 (amended): for every inbound message whose `key.remoteJid` is present,
`handleIncomingMessage` never propagates an exception: every downstream
failure (the backend forward throwing, the reply send failing) degrades to an
error reply and the function returns normally. -/
theorem handler_no_throw_of_remoteJid_present (env : Env) (m : InboundMessage)
    (h : m.remoteJid.isSome = true) :
    exceptOk (handleIncomingMessage env m) = true := by
  rcases m with ⟨jid?, fm, body?, mid, ts⟩
  cases jid? with
  | none => simp at h
  | some jid =>
      cases body? with
      | none => rfl
      | some b =>
          rcases henv : env.backend { phone_number := normalizePhone jid,
                                      message := messageTextOf b,
                                      message_id := mid,
                                      timestamp := ts } with e | data
          · simp [handleIncomingMessage, henv, exceptOk]
          · rcases data with ⟨reply?⟩
            cases reply? with
            | none => simp [handleIncomingMessage, henv, exceptOk]
            | some reply =>
                by_cases hr : reply = "" <;>
                  simp [handleIncomingMessage, henv, hr, exceptOk]

/-- Witness for C1 (amended) at a concrete message and failing backend. -/
theorem handler_no_throw_witness :
    c1WitMsg.remoteJid.isSome = true ∧
      exceptOk (handleIncomingMessage c1WitEnv c1WitMsg) = true :=
  ⟨rfl, handler_no_throw_of_remoteJid_present c1WitEnv c1WitMsg rfl⟩

/-- C2 as stated is false: when sending the backend's reply throws at the
transport level (`sock.sendMessage` raises), the failure is caught inside
`sendMessage` and surfaced only as `success = false`; the handler makes no
further `sendMessage` call, so the sender receives nothing and no error reply
is attempted — the single attempted send is the (failed) reply itself. -/
theorem error_swallowed_on_reply_send_failure :
    sendCallsOf (handleIncomingMessage c2CexEnv c2CexMsg) = [("123", "Welcome!")] ∧
      (sendMessage c2CexEnv "123" "Welcome!").1.success = false ∧
      ("123", errorText) ∉ sendCallsOf (handleIncomingMessage c2CexEnv c2CexMsg) := by
  refine ⟨by decide, by decide, by decide⟩

/-- C2 (amended): for every inbound message with `remoteJid` present whose
forward to the backend throws, the handler attempts exactly the fixed error
reply, addressed to the normalized sender.  A failure inside `sendMessage`
itself is caught there and produces no user-visible reply. -/
theorem error_reply_on_backend_throw (env : Env) (m : InboundMessage)
    (jid : String) (b : MsgBody) (e : String)
    (hj : m.remoteJid = some jid) (hb : m.body = some b)
    (he : env.backend { phone_number := normalizePhone jid,
                        message := messageTextOf b,
                        message_id := m.messageId,
                        timestamp := m.timestamp } = .error e) :
    sendCallsOf (handleIncomingMessage env m) =
      [(normalizePhone jid, errorText)] := by
  rcases m with ⟨jid?, fm, body?, mid, ts⟩
  dsimp only at hj hb he
  subst hj
  subst hb
  simp [handleIncomingMessage, he, sendCallsOf]

/-- Witness for C2 (amended) at a concrete message and unreachable backend. -/
theorem error_reply_on_backend_throw_witness :
    c2WitMsg.remoteJid = some "49170@s.whatsapp.net" ∧
      c2WitMsg.body = some { conversation := some "STATUS", extendedText := none } ∧
      sendCallsOf (handleIncomingMessage c2WitEnv c2WitMsg) =
        [(normalizePhone "49170@s.whatsapp.net", errorText)] :=
  ⟨rfl, rfl,
    error_reply_on_backend_throw c2WitEnv c2WitMsg "49170@s.whatsapp.net"
      { conversation := some "STATUS", extendedText := none } "ECONNREFUSED"
      rfl rfl rfl⟩

/-- C3: starting from any store satisfying it, the invariant
`0 ≤ stamps ≤ 10` and `rewards ≥ 0` (spelled out record-wise by
`customerInv`) holds for every customer record after any sequence of JOIN,
STATUS, REWARD, UPDATE_NAME, STAMP and REDEEM operations. -/
theorem loyalty_invariant (staff : List String) (ops : List Command)
    (s : Store) (h : storeInv s = true) :
    storeInv (run staff s ops) = true :=
  storeInv_run staff ops s h

/-- Witness for C3: a concrete run through join, stamps (one denied by the
cooldown), a reward claim and a redemption keeps the invariant. -/
theorem loyalty_invariant_witness :
    storeInv [] = true ∧ storeInv (run c3Staff [] c3Ops) = true :=
  ⟨rfl, loyalty_invariant c3Staff c3Ops [] rfl⟩

/-- C4 as stated is false: JavaScript `replace` with a string pattern removes
only the first occurrence, so normalizing
`'@s.whatsapp.net@s.whatsapp.net'` yields `'@s.whatsapp.net'` while a second
application yields the empty string. -/
theorem normalizePhone_not_idempotent :
    normalizePhone (normalizePhone "@s.whatsapp.net@s.whatsapp.net") ≠
      normalizePhone "@s.whatsapp.net@s.whatsapp.net" := by
  decide

/-- C4 (amended): the normalizer is idempotent exactly on the inputs whose
normalized form no longer contains the channel suffix — in particular on
every ordinary jid with a single suffix occurrence. -/
theorem normalizePhone_idempotent_of_no_residual (x : String)
    (h : containsPat suffixChars (normalizePhone x).data = false) :
    normalizePhone (normalizePhone x) = normalizePhone x := by
  show String.mk (removeFirst suffixChars (normalizePhone x).data) = normalizePhone x
  rw [removeFirst_of_not_containsPat suffixChars _ h]

/-- Witness for C4 (amended) on an ordinary remote jid. -/
theorem normalizePhone_idempotent_witness :
    containsPat suffixChars (normalizePhone "123@s.whatsapp.net").data = false ∧
      normalizePhone (normalizePhone "123@s.whatsapp.net") =
        normalizePhone "123@s.whatsapp.net" :=
  ⟨by decide, normalizePhone_idempotent_of_no_residual "123@s.whatsapp.net" (by decide)⟩

/-- C5 as stated is false: the normalizer performs no digit filtering — on
the input `'abc'` its output is `'abc'`, which is not digits with an optional
leading `'+'`. -/
theorem normalizer_keeps_nondigits :
    onlyDigitsOrLeadingPlus (normalizePhone "abc") = false := by
  decide

/-- C5 (amended): the normalizer strips only the first occurrence of the
channel suffix `'@s.whatsapp.net'` and filters no characters: its output is
always a subsequence of its input, so non-digit characters outside the suffix
survive. -/
theorem normalizePhone_output_sublist (x : String) :
    List.Sublist (normalizePhone x).data x.data :=
  removeFirst_sublist suffixChars x.data

/-- C6: a self-sent echo, a message with no body, or an event whose type is
not `'notify'` is filtered upstream of the dispatcher: it never reaches
`handleIncomingMessage`. -/
theorem upstream_filter_excludes (eventType : String)
    (msgs : List InboundMessage) (m : InboundMessage)
    (h : m.fromMe = true ∨ m.body = none ∨ eventType ≠ "notify") :
    m ∉ handledMessages eventType msgs := by
  intro hmem
  unfold handledMessages at hmem
  by_cases ht : eventType = "notify"
  · rw [if_pos ht] at hmem
    have hp := List.of_mem_filter hmem
    rcases h with h | h | h
    · simp [h] at hp
    · simp [h] at hp
    · exact h ht
  · rw [if_neg ht] at hmem
    exact absurd hmem (List.not_mem_nil m)

/-- Witness for C6 at a concrete self-sent echo inside a notify event. -/
theorem upstream_filter_excludes_witness :
    (c6Msg.fromMe = true ∨ c6Msg.body = none ∨ "notify" ≠ "notify") ∧
      c6Msg ∉ handledMessages "notify" [c6Msg] :=
  ⟨Or.inl rfl, upstream_filter_excludes "notify" [c6Msg] c6Msg (Or.inl rfl)⟩

/-- C7: when the backend call succeeds, the inbound path invokes exactly one
reply send if and only if the response carries a non-empty `reply`, addressed
to the normalized sender, and makes no other outbound initiation. -/
theorem reply_sent_iff_nonempty (env : Env) (m : InboundMessage)
    (jid : String) (b : MsgBody) (data : BackendData)
    (hj : m.remoteJid = some jid) (hb : m.body = some b)
    (hr : env.backend { phone_number := normalizePhone jid,
                        message := messageTextOf b,
                        message_id := m.messageId,
                        timestamp := m.timestamp } = .ok data) :
    sendCallsOf (handleIncomingMessage env m) =
      (match data.reply with
       | some reply => if reply = "" then [] else [(normalizePhone jid, reply)]
       | none => []) := by
  rcases m with ⟨jid?, fm, body?, mid, ts⟩
  dsimp only at hj hb hr
  subst hj
  subst hb
  rcases data with ⟨reply?⟩
  cases reply? with
  | none => simp [handleIncomingMessage, hr, sendCallsOf]
  | some reply =>
      by_cases he : reply = "" <;>
        simp [handleIncomingMessage, hr, he, sendCallsOf]

/-- Witness for C7 at a concrete message and a backend replying
`'Stamps: 3/10'`. -/
theorem reply_sent_iff_nonempty_witness :
    c7WitMsg.remoteJid = some "31612345678@s.whatsapp.net" ∧
      c7WitMsg.body = some { conversation := some "STATUS", extendedText := none } ∧
      sendCallsOf (handleIncomingMessage c7WitEnv c7WitMsg) =
        [(normalizePhone "31612345678@s.whatsapp.net", "Stamps: 3/10")] :=
  ⟨rfl, rfl,
    reply_sent_iff_nonempty c7WitEnv c7WitMsg "31612345678@s.whatsapp.net"
      { conversation := some "STATUS", extendedText := none }
      { reply := some "Stamps: 3/10" } rfl rfl rfl⟩

/-- C8: for every actionable inbound message, the payload forwarded to the
core consists of exactly the four fields: the normalized sender as
`phone_number`, the raw text (conversation text, else extended text, else the
empty string) as `message`, the key id as `message_id`, and the message
timestamp. -/
theorem forwarded_payload_fields (env : Env) (m : InboundMessage)
    (jid : String) (b : MsgBody)
    (hj : m.remoteJid = some jid) (hb : m.body = some b) :
    postedOf (handleIncomingMessage env m) =
      [{ phone_number := normalizePhone jid,
         message := jsOr b.conversation (jsOr b.extendedText ""),
         message_id := m.messageId, timestamp := m.timestamp }] := by
  rcases m with ⟨jid?, fm, body?, mid, ts⟩
  dsimp only at hj hb ⊢
  subst hj
  subst hb
  have hmt : jsOr b.conversation (jsOr b.extendedText "") = messageTextOf b := rfl
  rw [hmt]
  rcases henv : env.backend { phone_number := normalizePhone jid,
                              message := messageTextOf b,
                              message_id := mid,
                              timestamp := ts } with e | data
  · simp [handleIncomingMessage, henv, postedOf]
  · rcases data with ⟨reply?⟩
    cases reply? with
    | none => simp [handleIncomingMessage, henv, postedOf]
    | some reply =>
        by_cases he : reply = "" <;>
          simp [handleIncomingMessage, henv, he, postedOf]

/-- Witness for C8 at a message carried in the extended text field. -/
theorem forwarded_payload_fields_witness :
    c8WitMsg.remoteJid = some "14155550100@s.whatsapp.net" ∧
      c8WitMsg.body = some { conversation := none, extendedText := some "UPDATE NAME Ada" } ∧
      postedOf (handleIncomingMessage c7WitEnv c8WitMsg) =
        [{ phone_number := normalizePhone "14155550100@s.whatsapp.net",
           message := jsOr none (jsOr (some "UPDATE NAME Ada") ""),
           message_id := "H1", timestamp := 1700000006 }] :=
  ⟨rfl, rfl,
    forwarded_payload_fields c7WitEnv c8WitMsg "14155550100@s.whatsapp.net"
      { conversation := none, extendedText := some "UPDATE NAME Ada" } rfl rfl⟩

/-- C9: `sendMessage` is total — every call returns a result object with a
boolean `success` — and when the socket is absent or the connection status is
not `'connected'` it returns `success = false` with error
`'WhatsApp not connected'` and performs no socket send. -/
theorem sendMessage_not_connected (env : Env) (phoneNumber text : String)
    (h : env.sockPresent = false ∨ env.connectionStatus ≠ "connected") :
    sendMessage env phoneNumber text =
      ({ success := false, error := some "WhatsApp not connected" }, []) := by
  unfold sendMessage
  rw [if_pos h]

/-- Witness for C9 at a disconnected environment. -/
theorem sendMessage_not_connected_witness :
    (c9Env.sockPresent = false ∨ c9Env.connectionStatus ≠ "connected") ∧
      sendMessage c9Env "15551234567" "hello" =
        ({ success := false, error := some "WhatsApp not connected" }, []) :=
  ⟨Or.inl rfl, sendMessage_not_connected c9Env "15551234567" "hello" (Or.inl rfl)⟩

/-- C10: for a remote jid made of digits followed by a single
`'@s.whatsapp.net'` suffix, stripping the suffix on the way in and rebuilding
the jid in `sendMessage` on the way out reproduces the original jid, so the
backend reply and the error reply address the original sender. -/
theorem jid_round_trip (ds : String) (h : ds.data.all Char.isDigit = true) :
    normalizePhone (ds ++ "@s.whatsapp.net") = ds ∧
      jidFor (normalizePhone (ds ++ "@s.whatsapp.net")) =
        ds ++ "@s.whatsapp.net" := by
  have hnd : ∀ c ∈ ds.data, c ≠ '@' := by
    intro c hc heq
    have hd := List.all_eq_true.mp h c hc
    rw [heq] at hd
    exact absurd hd (by decide)
  have hn : normalizePhone (ds ++ "@s.whatsapp.net") = ds := by
    unfold normalizePhone
    rw [String.data_append]
    have hsc : "@s.whatsapp.net".data = suffixChars := rfl
    rw [hsc, removeFirst_suffix_append ds.data hnd]
  refine ⟨hn, ?_⟩
  rw [hn]
  unfold jidFor containsAt
  have hco : ds.data.contains '@' = false := by
    cases hcc : ds.data.contains '@' with
    | false => rfl
    | true => exact absurd (List.elem_iff.mp hcc) (fun hmem => hnd '@' hmem rfl)
  rw [hco]
  simp

/-- Witness for C10 on a concrete all-digit number. -/
theorem jid_round_trip_witness :
    ("15551234567" : String).data.all Char.isDigit = true ∧
      normalizePhone ("15551234567" ++ "@s.whatsapp.net") = "15551234567" ∧
      jidFor (normalizePhone ("15551234567" ++ "@s.whatsapp.net")) =
        "15551234567" ++ "@s.whatsapp.net" :=
  ⟨by decide,
    (jid_round_trip "15551234567" (by decide)).1,
    (jid_round_trip "15551234567" (by decide)).2⟩

end CoffeePassport
